import Mathlib

/-!
Shallow embedding of the gonano ledger core (package store: ledger.go, badger.go)
and of the wallet Balance codec (wallet/balance.go), together with theorems that
settle the frozen claims about its natural-language specification.

Modelling conventions:
* Addresses, hashes and signatures are opaque 32-byte values in the source; they
  are embedded as natural numbers (only equality is ever used on them).
* Balances are 128-bit unsigned integers (nano/internal/uint128, not under src/);
  they are embedded as naturals with arithmetic taken modulo 2^128.
* Signature verification (ed25519) and proof-of-work validation are out of scope
  of the repository core; verification is passed in as an oracle
  `verify : address → hash → signature → Bool`, and each block carries the
  result of its own proof-of-work check in a Boolean field.
* The badger store is modelled as five association lists (one per key prefix);
  a badger transaction reads its own writes, so transactional code is embedded
  as explicit state passing.  `db.Update` commits the final state when the
  closure returns nil and discards all mutations when it returns an error.
-/

/-- Association-list lookup: the value stored under key k, if any. -/
def alookup {κ : Type} [DecidableEq κ] {α : Type} (k : κ) : List (κ × α) → Option α
  | [] => none
  | (k', v) :: rest => if k' = k then some v else alookup k rest

/-- Association-list erase: removes the binding of key k (badger Delete, which
succeeds also when the key is absent). -/
def aerase {κ : Type} [DecidableEq κ] {α : Type} (k : κ) (l : List (κ × α)) : List (κ × α) :=
  l.filter (fun p => p.1 ≠ k)

/-- Association-list set: overwrites the binding of key k (badger txn.Set). -/
def aset {κ : Type} [DecidableEq κ] {α : Type} (k : κ) (v : α) (l : List (κ × α)) : List (κ × α) :=
  (k, v) :: aerase k l

namespace Balance

/-- Modelled from the spec: the 128-bit unsigned integer library
(nano/internal/uint128) is not under src/; per spec sections 3 and 9 balances
are 128-bit unsigned with unchecked (wrapping) arithmetic.  Addition wraps
modulo 2^128. -/
def add (a b : ℕ) : ℕ := (a + b) % 2 ^ 128

/-- Modelled from the spec: unchecked 128-bit subtraction, wrapping modulo
2^128 (two's-complement style: a - b = a + (2^128 - b) mod 2^128). -/
def sub (a b : ℕ) : ℕ := (a + (2 ^ 128 - b % 2 ^ 128)) % 2 ^ 128

end Balance

/-- Block-variant data for an Open block (block package is not under src/;
fields follow spec section 4.C: address, representative, source hash, plus the
block's hash, signature and the result of its proof-of-work check). -/
structure OpenBlk where
  hash : ℕ
  address : ℕ
  representative : ℕ
  sourceHash : ℕ
  signature : ℕ
  valid : Bool
deriving DecidableEq, Repr

/-- Block-variant data for a Send block: previous, destination and the NEW
remaining balance (spec section 4.C). -/
structure SendBlk where
  hash : ℕ
  previous : ℕ
  destination : ℕ
  balance : ℕ
  signature : ℕ
  valid : Bool
deriving DecidableEq, Repr

/-- Block-variant data for a Receive block: previous and source hash. -/
structure RecvBlk where
  hash : ℕ
  previous : ℕ
  sourceHash : ℕ
  signature : ℕ
  valid : Bool
deriving DecidableEq, Repr

/-- Block-variant data for a Change block: previous and new representative. -/
structure ChangeBlk where
  hash : ℕ
  previous : ℕ
  representative : ℕ
  signature : ℕ
  valid : Bool
deriving DecidableEq, Repr

/-- The block.Block interface.  The four concrete variants are Open, Send,
Receive and Change; `unknown` stands for any other implementation of the Go
interface (the interface is open, so a value outside the four named variants is
representable), carrying just the data the generic addBlock path consults. -/
inductive Block where
  | opn (b : OpenBlk)
  | send (b : SendBlk)
  | recv (b : RecvBlk)
  | change (b : ChangeBlk)
  | unknown (hash root signature : ℕ) (valid : Bool)
deriving DecidableEq, Repr

namespace Block

/-- Hash() of a block. -/
def hash : Block → ℕ
  | .opn b => b.hash
  | .send b => b.hash
  | .recv b => b.hash
  | .change b => b.hash
  | .unknown h _ _ _ => h

/-- Modelled from the spec: Root() of a block (block package not under src/).
Per spec section 4.C it is the previous hash for Send/Receive/Change and the
source hash for Open. -/
def root : Block → ℕ
  | .opn b => b.sourceHash
  | .send b => b.previous
  | .recv b => b.previous
  | .change b => b.previous
  | .unknown _ r _ _ => r

/-- Valid() of a block: the proof-of-work check, carried as a field. -/
def valid : Block → Bool
  | .opn b => b.valid
  | .send b => b.valid
  | .recv b => b.valid
  | .change b => b.valid
  | .unknown _ _ _ v => v

end Block

/-- AddressInfo record: head block, representative block, open block, balance. -/
structure AddressInfo where
  headBlock : ℕ
  repBlock : ℕ
  openBlock : ℕ
  balance : ℕ
deriving DecidableEq, Repr

/-- Pending record: the originating address and the amount sent. -/
structure Pending where
  address : ℕ
  amount : ℕ
deriving DecidableEq, Repr

/-- The five logical tables of the store, one association list per key prefix
(badger.go stores them in one keyspace behind one-byte prefixes). -/
structure StoreState where
  blocks : List (ℕ × Block)
  addresses : List (ℕ × AddressInfo)
  frontiers : List (ℕ × ℕ)
  pendings : List ((ℕ × ℕ) × Pending)
  reps : List (ℕ × ℕ)
deriving DecidableEq, Repr

/-- The wholly empty store. -/
def emptyStore : StoreState := ⟨[], [], [], [], []⟩

/-- Distinguished error values of the ledger and store layer.  Errors created
with errors.New in the source keep their identity here so dispatch on them can
be stated. -/
inductive Err where
  | badWork
  | badGenesis
  | missingPrevious
  | missingSource
  | blockExists
  | keyNotFound
  | badSignature
  | accountExists
  | addressExists
  | frontierExists
  | pendingExists
  | unexpectedHead
  | negativeOrZeroSpend
  | badRepBlockType
  | badBalanceSize
deriving DecidableEq, Repr

namespace StoreTxn

/-- BadgerStoreTxn.Empty: true iff no key with the block prefix exists. -/
def empty (s : StoreState) : Bool := s.blocks.isEmpty

/-- BadgerStoreTxn.HasBlock. -/
def hasBlock (s : StoreState) (h : ℕ) : Bool := (alookup h s.blocks).isSome

/-- BadgerStoreTxn.AddBlock: never overwrites implicitly; fails with
ErrBlockExists when the hash is already stored. -/
def addBlock (s : StoreState) (blk : Block) : Except Err StoreState :=
  if (alookup blk.hash s.blocks).isSome then .error .blockExists
  else .ok { s with blocks := aset blk.hash blk s.blocks }

/-- BadgerStoreTxn.GetBlock. -/
def getBlock (s : StoreState) (h : ℕ) : Except Err Block :=
  match alookup h s.blocks with
  | some b => .ok b
  | none => .error .keyNotFound

/-- BadgerStoreTxn.CountBlocks: the number of keys with the block prefix. -/
def countBlocks (s : StoreState) : ℕ := s.blocks.length

/-- BadgerStoreTxn.AddAddress: fails when the address already has a record. -/
def addAddress (s : StoreState) (addr : ℕ) (info : AddressInfo) : Except Err StoreState :=
  if (alookup addr s.addresses).isSome then .error .addressExists
  else .ok { s with addresses := aset addr info s.addresses }

/-- BadgerStoreTxn.GetAddress. -/
def getAddress (s : StoreState) (addr : ℕ) : Except Err AddressInfo :=
  match alookup addr s.addresses with
  | some info => .ok info
  | none => .error .keyNotFound

/-- BadgerStoreTxn.UpdateAddress: plain overwrite. -/
def updateAddress (s : StoreState) (addr : ℕ) (info : AddressInfo) : StoreState :=
  { s with addresses := aset addr info s.addresses }

/-- BadgerStoreTxn.AddFrontier: fails when a frontier with this hash exists. -/
def addFrontier (s : StoreState) (h : ℕ) (addr : ℕ) : Except Err StoreState :=
  if (alookup h s.frontiers).isSome then .error .frontierExists
  else .ok { s with frontiers := aset h addr s.frontiers }

/-- BadgerStoreTxn.GetFrontier: yields the address owning the tip hash. -/
def getFrontier (s : StoreState) (h : ℕ) : Except Err ℕ :=
  match alookup h s.frontiers with
  | some addr => .ok addr
  | none => .error .keyNotFound

/-- BadgerStoreTxn.DeleteFrontier: badger Delete, a no-op on an absent key. -/
def deleteFrontier (s : StoreState) (h : ℕ) : StoreState :=
  { s with frontiers := aerase h s.frontiers }

/-- BadgerStoreTxn.AddPending, keyed by (destination, source hash). -/
def addPending (s : StoreState) (dest : ℕ) (h : ℕ) (p : Pending) : Except Err StoreState :=
  if (alookup (dest, h) s.pendings).isSome then .error .pendingExists
  else .ok { s with pendings := aset (dest, h) p s.pendings }

/-- BadgerStoreTxn.GetPending. -/
def getPending (s : StoreState) (dest : ℕ) (h : ℕ) : Except Err Pending :=
  match alookup (dest, h) s.pendings with
  | some p => .ok p
  | none => .error .keyNotFound

/-- BadgerStoreTxn.DeletePending. -/
def deletePending (s : StoreState) (dest : ℕ) (h : ℕ) : StoreState :=
  { s with pendings := aerase (dest, h) s.pendings }

/-- BadgerStoreTxn.GetRepresentation: zero when the key is absent. -/
def getRepresentation (s : StoreState) (addr : ℕ) : ℕ :=
  (alookup addr s.reps).getD 0

/-- BadgerStoreTxn.setRepresentation: plain overwrite. -/
def setRepresentation (s : StoreState) (addr : ℕ) (amount : ℕ) : StoreState :=
  { s with reps := aset addr amount s.reps }

/-- BadgerStoreTxn.AddRepresentation: current + amount (current defaults to
zero); the only error paths in the source are backend I/O, absent here. -/
def addRepresentation (s : StoreState) (addr : ℕ) (amount : ℕ) : Except Err StoreState :=
  .ok (setRepresentation s addr (Balance.add (getRepresentation s addr) amount))

/-- BadgerStoreTxn.SubRepresentation: current − amount via the unchecked
uint128 Sub; the source has no underflow check, so no error path exists besides
backend I/O. -/
def subRepresentation (s : StoreState) (addr : ℕ) (amount : ℕ) : Except Err StoreState :=
  .ok (setRepresentation s addr (Balance.sub (getRepresentation s addr) amount))

end StoreTxn

/-- Result of running ledger code inside a write transaction: success and
failure both carry the transaction state reached so far (a badger transaction
keeps earlier writes when a later step fails; whether they commit is decided by
the db.Update wrapper), and `panicked` records a Go panic. -/
inductive TxResult (α : Type) where
  | ok (a : α) (s : StoreState)
  | err (e : Err) (s : StoreState)
  | panicked
deriving DecidableEq, Repr

namespace Ledger

/-- Ledger.getRepresentative: load the address info, fetch its rep block and
return that block's representative; any other block type is an error. -/
def getRepresentative (s : StoreState) (address : ℕ) : Except Err ℕ :=
  match StoreTxn.getAddress s address with
  | .error e => .error e
  | .ok info =>
    match StoreTxn.getBlock s info.repBlock with
    | .error e => .error e
    | .ok (.opn b) => .ok b.representative
    | .ok (.change b) => .ok b.representative
    | .ok _ => .error .badRepBlockType

/-- Propagation of a fallible store call inside a write transaction: on error
the handler returns it (the Go if err != nil { return err } idiom), keeping
the transaction state reached so far; on success the continuation runs. -/
def step {α : Type} (x : Except Err α) (s : StoreState) (k : α → TxResult Unit) :
    TxResult Unit :=
  match x with
  | .error e => .err e s
  | .ok a => k a

/-- Ledger.addOpenBlock, translated step for step from the source. -/
def addOpenBlock (verify : ℕ → ℕ → ℕ → Bool) (blk : OpenBlk) (s : StoreState) :
    TxResult Unit :=
  if verify blk.address blk.hash blk.signature = false then .err .badSignature s
  else
    match StoreTxn.getAddress s blk.address with
    | .ok _ => .err .accountExists s
    | .error _ =>
      match StoreTxn.getPending s blk.address blk.sourceHash with
      | .error _ => .err .missingSource s
      | .ok pending =>
        step (StoreTxn.addAddress s blk.address
            ⟨blk.hash, blk.hash, blk.hash, pending.amount⟩) s fun s1 =>
        let s2 := StoreTxn.deletePending s1 blk.address blk.sourceHash
        step (StoreTxn.addRepresentation s2 blk.representative pending.amount) s2 fun s3 =>
        step (StoreTxn.addFrontier s3 blk.hash blk.address) s3 fun s4 =>
        step (StoreTxn.addBlock s4 (.opn blk)) s4 fun s5 =>
        .ok () s5

/-- Ledger.addSendBlock, translated step for step from the source.  Note that
the frontier deleted near the end is the one keyed by the NEW hash, exactly as
in the source (txn.DeleteFrontier(hash)). -/
def addSendBlock (verify : ℕ → ℕ → ℕ → Bool) (blk : SendBlk) (s : StoreState) :
    TxResult Unit :=
  step (StoreTxn.getFrontier s blk.previous) s fun faddr =>
  if verify faddr blk.hash blk.signature = false then .err .badSignature s
  else
    step (StoreTxn.getAddress s faddr) s fun info =>
    if info.headBlock ≠ blk.previous then .err .unexpectedHead s
    else if info.balance ≤ blk.balance then .err .negativeOrZeroSpend s
    else
      step (StoreTxn.addPending s blk.destination blk.hash
          ⟨faddr, Balance.sub info.balance blk.balance⟩) s fun s1 =>
      let s2 := StoreTxn.updateAddress s1 faddr
        { info with headBlock := blk.hash, balance := blk.balance }
      step (getRepresentative s2 faddr) s2 fun rep =>
      step (StoreTxn.subRepresentation s2 rep blk.balance) s2 fun s3 =>
      let s4 := StoreTxn.deleteFrontier s3 blk.hash
      step (StoreTxn.addFrontier s4 blk.hash faddr) s4 fun s5 =>
      step (StoreTxn.addBlock s5 (.send blk)) s5 fun s6 =>
      .ok () s6

/-- Ledger.addReceiveBlock, translated step for step from the source. -/
def addReceiveBlock (verify : ℕ → ℕ → ℕ → Bool) (blk : RecvBlk) (s : StoreState) :
    TxResult Unit :=
  step (StoreTxn.getFrontier s blk.previous) s fun faddr =>
  if verify faddr blk.hash blk.signature = false then .err .badSignature s
  else
    step (StoreTxn.getAddress s faddr) s fun info =>
    if info.headBlock ≠ blk.previous then .err .unexpectedHead s
    else
      match StoreTxn.getPending s faddr blk.sourceHash with
      | .error _ => .err .missingSource s
      | .ok pending =>
        let s1 := StoreTxn.updateAddress s faddr
          { info with headBlock := blk.hash,
                      balance := Balance.add info.balance pending.amount }
        let s2 := StoreTxn.deletePending s1 faddr blk.sourceHash
        step (getRepresentative s2 faddr) s2 fun rep =>
        step (StoreTxn.addRepresentation s2 rep pending.amount) s2 fun s3 =>
        let s4 := StoreTxn.deleteFrontier s3 blk.hash
        step (StoreTxn.addFrontier s4 blk.hash faddr) s4 fun s5 =>
        step (StoreTxn.addBlock s5 (.recv blk)) s5 fun s6 =>
        .ok () s6

/-- Ledger.addChangeBlock, translated step for step from the source.  The
source updates info.RepBlock to the change hash and writes it back BEFORE
asking getRepresentative for the old representative. -/
def addChangeBlock (verify : ℕ → ℕ → ℕ → Bool) (blk : ChangeBlk) (s : StoreState) :
    TxResult Unit :=
  step (StoreTxn.getFrontier s blk.previous) s fun faddr =>
  if verify faddr blk.hash blk.signature = false then .err .badSignature s
  else
    step (StoreTxn.getAddress s faddr) s fun info =>
    if info.headBlock ≠ blk.previous then .err .unexpectedHead s
    else
      let s1 := StoreTxn.updateAddress s faddr
        { info with headBlock := blk.hash, repBlock := blk.hash }
      step (getRepresentative s1 faddr) s1 fun oldRep =>
      step (StoreTxn.subRepresentation s1 oldRep info.balance) s1 fun s2 =>
      step (StoreTxn.addRepresentation s2 blk.representative info.balance) s2 fun s3 =>
      let s4 := StoreTxn.deleteFrontier s3 blk.hash
      step (StoreTxn.addFrontier s4 blk.hash faddr) s4 fun s5 =>
      step (StoreTxn.addBlock s5 (.change blk)) s5 fun s6 =>
      .ok () s6

/-- Ledger.addBlock: the generic admission pipeline (PoW, hash uniqueness,
root presence) followed by the type switch, whose default branch panics. -/
def addBlock (verify : ℕ → ℕ → ℕ → Bool) (blk : Block) (s : StoreState) :
    TxResult Unit :=
  if blk.valid = false then .err .badWork s
  else if StoreTxn.hasBlock s blk.hash then .err .blockExists s
  else if StoreTxn.hasBlock s blk.root = false then .err .missingPrevious s
  else
    match blk with
    | .opn b => addOpenBlock verify b s
    | .send b => addSendBlock verify b s
    | .recv b => addReceiveBlock verify b s
    | .change b => addChangeBlock verify b s
    | .unknown _ _ _ _ => .panicked

/-- Outcome of a db.Update call: commit, rollback with the error, or panic. -/
inductive UpdateResult where
  | ok (s : StoreState)
  | err (e : Err) (s : StoreState)
  | panicked
deriving DecidableEq, Repr

/-- Ledger.AddBlock: one block per write transaction; an error from addBlock
aborts the transaction, so the pre-call state is what remains committed. -/
def AddBlock (verify : ℕ → ℕ → ℕ → Bool) (blk : Block) (s : StoreState) :
    UpdateResult :=
  match addBlock verify blk s with
  | .ok _ s1 => .ok s1
  | .err e _ => .err e s
  | .panicked => .panicked

/-- Loop body of Ledger.AddBlocks: every error is classified (ignored, queued
or logged) and the loop continues with the transaction state reached so far;
the closure itself never returns an error. -/
def addBlocksLoop (verify : ℕ → ℕ → ℕ → Bool) : List Block → StoreState → TxResult Unit
  | [], s => .ok () s
  | blk :: rest, s =>
    match addBlock verify blk s with
    | .ok _ s1 => addBlocksLoop verify rest s1
    | .err _ s1 => addBlocksLoop verify rest s1
    | .panicked => .panicked

/-- Ledger.AddBlocks: the whole batch runs in one write transaction and the
closure returns nil, so whatever state the loop reached is committed. -/
def AddBlocks (verify : ℕ → ℕ → ℕ → Bool) (blks : List Block) (s : StoreState) :
    UpdateResult :=
  match addBlocksLoop verify blks s with
  | .ok _ s1 => .ok s1
  | .err e _ => .err e s
  | .panicked => .panicked

/-- Ledger.setGenesis (the body of NewLedger): verify the genesis signature
(the proof-of-work check only prints a warning), then inside one write
transaction install the genesis block, address info and frontier when the
store holds no block, and otherwise require the genesis hash to be present. -/
def setGenesis (verify : ℕ → ℕ → ℕ → Bool) (g : OpenBlk) (balance : ℕ)
    (s : StoreState) : Except Err StoreState :=
  if verify g.address g.hash g.signature = false then .error .badSignature
  else
    if StoreTxn.empty s then
      match StoreTxn.addBlock s (.opn g) with
      | .error e => .error e
      | .ok s1 =>
        match StoreTxn.addAddress s1 g.address ⟨g.hash, g.hash, g.hash, balance⟩ with
        | .error e => .error e
        | .ok s2 => StoreTxn.addFrontier s2 g.hash g.address
    else
      if StoreTxn.hasBlock s g.hash then .ok s else .error .badGenesis

end Ledger

theorem aerase_cons {κ : Type} [DecidableEq κ] {α : Type} (k : κ) (p : κ × α) (l : List (κ × α)) :
    aerase k (p :: l) = if p.1 = k then aerase k l else p :: aerase k l := by
  by_cases hp : p.1 = k <;> simp [aerase, hp]

theorem alookup_aerase_self {κ : Type} [DecidableEq κ] {α : Type} (k : κ) (l : List (κ × α)) :
    alookup k (aerase k l) = none := by
  induction l with
  | nil => rfl
  | cons p rest ih =>
    rcases p with ⟨a, v⟩
    rw [aerase_cons]
    by_cases hp : a = k
    · rw [if_pos hp]; exact ih
    · rw [if_neg hp]; simpa [alookup, hp] using ih

theorem alookup_aerase_ne {κ : Type} [DecidableEq κ] {α : Type} {k k' : κ} (l : List (κ × α))
    (h : k' ≠ k) : alookup k' (aerase k l) = alookup k' l := by
  induction l with
  | nil => rfl
  | cons p rest ih =>
    rcases p with ⟨a, v⟩
    rw [aerase_cons]
    by_cases hp : a = k
    · rw [if_pos hp]
      have ha : a ≠ k' := fun hh => h (hh.symm.trans hp)
      simp [alookup, ha, ih]
    · rw [if_neg hp]
      by_cases hq : a = k'
      · simp [alookup, hq]
      · simp [alookup, hq, ih]

theorem alookup_aset_self {κ : Type} [DecidableEq κ] {α : Type} (k : κ) (v : α) (l : List (κ × α)) :
    alookup k (aset k v l) = some v := by
  simp [aset, alookup]

theorem alookup_aset_ne {κ : Type} [DecidableEq κ] {α : Type} {k k' : κ} (v : α) (l : List (κ × α))
    (h : k' ≠ k) : alookup k' (aset k v l) = alookup k' l := by
  have hk : k ≠ k' := fun hh => h hh.symm
  simp [aset, alookup, hk]
  exact alookup_aerase_ne l h

/-- C4, counterexample: with Representation(0) = 0 (missing key, defaults to
zero) and amount 1 > 0, SubRepresentation does not fail; it succeeds and stores
the wrapped value 2^128 - 1.  This falsifies the claim that SubRepresentation
fails whenever the amount exceeds the current representation value. -/
theorem subRepresentation_underflow_counterexample :
    StoreTxn.getRepresentation emptyStore 0 < 1 ∧
    StoreTxn.subRepresentation emptyStore 0 1 =
      .ok ⟨[], [], [], [], [(0, 2 ^ 128 - 1)]⟩ := by
  constructor
  · decide
  · rfl

/-- C4 (amended): SubRepresentation(a, m) never fails, whatever the current
representation value of a; it stores the unchecked 128-bit difference, which
wraps modulo 2^128 when m exceeds the current value, and the representation of
every other address is unchanged. -/
theorem subRepresentation_wraps_never_fails (s : StoreState) (a m : ℕ) :
    ∃ s1, StoreTxn.subRepresentation s a m = .ok s1 ∧
      StoreTxn.getRepresentation s1 a =
        (StoreTxn.getRepresentation s a + (2 ^ 128 - m % 2 ^ 128)) % 2 ^ 128 ∧
      ∀ b, b ≠ a → StoreTxn.getRepresentation s1 b = StoreTxn.getRepresentation s b := by
  refine ⟨_, rfl, ?_, ?_⟩
  · simp [StoreTxn.getRepresentation, StoreTxn.setRepresentation, alookup_aset_self,
      Balance.sub]
  · intro b hb
    simp [StoreTxn.getRepresentation, StoreTxn.setRepresentation, alookup_aset_ne _ _ hb]

/-- C7: addBlock checks proof of work first (BadWork), then hash uniqueness
(BlockExists), then presence of the root block (MissingPrevious), and only
then dispatches on the block variant. -/
theorem addBlock_check_order (verify : ℕ → ℕ → ℕ → Bool) (blk : Block) (s : StoreState) :
    (blk.valid = false → Ledger.addBlock verify blk s = .err .badWork s) ∧
    (blk.valid = true → StoreTxn.hasBlock s blk.hash = true →
      Ledger.addBlock verify blk s = .err .blockExists s) ∧
    (blk.valid = true → StoreTxn.hasBlock s blk.hash = false →
      StoreTxn.hasBlock s blk.root = false →
      Ledger.addBlock verify blk s = .err .missingPrevious s) ∧
    (blk.valid = true → StoreTxn.hasBlock s blk.hash = false →
      StoreTxn.hasBlock s blk.root = true →
      Ledger.addBlock verify blk s =
        match blk with
        | .opn b => Ledger.addOpenBlock verify b s
        | .send b => Ledger.addSendBlock verify b s
        | .recv b => Ledger.addReceiveBlock verify b s
        | .change b => Ledger.addChangeBlock verify b s
        | .unknown _ _ _ _ => .panicked) := by
  refine ⟨?_, ?_, ?_, ?_⟩
  · intro h
    simp [Ledger.addBlock, h]
  · intro hv hh
    simp [Ledger.addBlock, hv, hh]
  · intro hv hh hr
    simp [Ledger.addBlock, hv, hh, hr]
  · intro hv hh hr
    simp [Ledger.addBlock, hv, hh, hr]

/-- Witness for addBlock_check_order at a block with invalid work. -/
theorem addBlock_check_order_witness :
    Ledger.addBlock (fun _ _ _ => true) (Block.unknown 0 0 0 false) emptyStore =
      .err .badWork emptyStore :=
  (addBlock_check_order (fun _ _ _ => true) (Block.unknown 0 0 0 false) emptyStore).1 rfl

theorem step_ne_panicked {α : Type} (x : Except Err α) (s : StoreState)
    (k : α → TxResult Unit) (hk : ∀ a, k a ≠ TxResult.panicked) :
    Ledger.step x s k ≠ TxResult.panicked := by
  cases x with
  | error e => simp [Ledger.step]
  | ok a => simpa [Ledger.step] using hk a

theorem addOpenBlock_ne_panicked (verify : ℕ → ℕ → ℕ → Bool) (b : OpenBlk) (s : StoreState) :
    Ledger.addOpenBlock verify b s ≠ TxResult.panicked := by
  unfold Ledger.addOpenBlock
  repeat' first
    | (apply step_ne_panicked; intro x)
    | split
    | simp

theorem addSendBlock_ne_panicked (verify : ℕ → ℕ → ℕ → Bool) (b : SendBlk) (s : StoreState) :
    Ledger.addSendBlock verify b s ≠ TxResult.panicked := by
  unfold Ledger.addSendBlock
  repeat' first
    | (apply step_ne_panicked; intro x)
    | split
    | simp

theorem addReceiveBlock_ne_panicked (verify : ℕ → ℕ → ℕ → Bool) (b : RecvBlk) (s : StoreState) :
    Ledger.addReceiveBlock verify b s ≠ TxResult.panicked := by
  unfold Ledger.addReceiveBlock
  repeat' first
    | (apply step_ne_panicked; intro x)
    | split
    | simp

theorem addChangeBlock_ne_panicked (verify : ℕ → ℕ → ℕ → Bool) (b : ChangeBlk) (s : StoreState) :
    Ledger.addChangeBlock verify b s ≠ TxResult.panicked := by
  unfold Ledger.addChangeBlock
  repeat' first
    | (apply step_ne_panicked; intro x)
    | split
    | simp

/-- C10: for each of the four concrete block variants the addBlock dispatch
never reaches the panicking default branch, whatever the state; the panic is
reached exactly by a block value outside the four variants that passes the
three generic admission checks, and then addBlock panics instead of returning
an error. -/
theorem addBlock_panic_only_outside_variants (verify : ℕ → ℕ → ℕ → Bool) (s : StoreState) :
    (∀ b : OpenBlk, Ledger.addBlock verify (.opn b) s ≠ TxResult.panicked) ∧
    (∀ b : SendBlk, Ledger.addBlock verify (.send b) s ≠ TxResult.panicked) ∧
    (∀ b : RecvBlk, Ledger.addBlock verify (.recv b) s ≠ TxResult.panicked) ∧
    (∀ b : ChangeBlk, Ledger.addBlock verify (.change b) s ≠ TxResult.panicked) ∧
    (∀ h r sig : ℕ, StoreTxn.hasBlock s h = false → StoreTxn.hasBlock s r = true →
      Ledger.addBlock verify (.unknown h r sig true) s = TxResult.panicked) := by
  refine ⟨?_, ?_, ?_, ?_, ?_⟩
  · intro b
    unfold Ledger.addBlock
    repeat' first
      | exact addOpenBlock_ne_panicked verify b s
      | split
      | simp
  · intro b
    unfold Ledger.addBlock
    repeat' first
      | exact addSendBlock_ne_panicked verify b s
      | split
      | simp
  · intro b
    unfold Ledger.addBlock
    repeat' first
      | exact addReceiveBlock_ne_panicked verify b s
      | split
      | simp
  · intro b
    unfold Ledger.addBlock
    repeat' first
      | exact addChangeBlock_ne_panicked verify b s
      | split
      | simp
  · intro h r sig hh hr
    simp [Ledger.addBlock, Block.valid, Block.hash, Block.root, hh, hr]

/-- Witness for addBlock_panic_only_outside_variants: a non-core block value
whose root is stored and whose hash is fresh makes addBlock panic. -/
theorem addBlock_panic_witness :
    Ledger.addBlock (fun _ _ _ => true) (.unknown 9 5 0 true)
      ⟨[(5, Block.unknown 5 5 0 true)], [], [], [], []⟩ = TxResult.panicked :=
  (addBlock_panic_only_outside_variants (fun _ _ _ => true)
    ⟨[(5, Block.unknown 5 5 0 true)], [], [], [], []⟩).2.2.2.2 9 5 0 (by decide) (by decide)

theorem getRepresentative_after_change_update (s : StoreState) (faddr h : ℕ)
    (info : AddressInfo) (hb : alookup h s.blocks = none) :
    Ledger.getRepresentative
      (StoreTxn.updateAddress s faddr { info with headBlock := h, repBlock := h }) faddr =
      .error .keyNotFound := by
  simp [Ledger.getRepresentative, StoreTxn.getAddress, StoreTxn.updateAddress,
    alookup_aset_self, StoreTxn.getBlock, hb]

theorem addChangeBlock_errs (verify : ℕ → ℕ → ℕ → Bool) (blk : ChangeBlk) (s : StoreState)
    (hb : alookup blk.hash s.blocks = none) :
    ∃ e s', Ledger.addChangeBlock verify blk s = .err e s' := by
  unfold Ledger.addChangeBlock
  cases hf : StoreTxn.getFrontier s blk.previous with
  | error e => exact ⟨e, s, by simp [Ledger.step, hf]⟩
  | ok faddr =>
    by_cases hsig : verify faddr blk.hash blk.signature = false
    · exact ⟨.badSignature, s, by simp [Ledger.step, hf, hsig]⟩
    · cases ha : StoreTxn.getAddress s faddr with
      | error e => exact ⟨e, s, by simp [Ledger.step, hf, hsig, ha]⟩
      | ok info =>
        by_cases hhd : info.headBlock ≠ blk.previous
        · exact ⟨.unexpectedHead, s, by simp [Ledger.step, hf, hsig, ha, hhd]⟩
        · refine ⟨.keyNotFound,
            StoreTxn.updateAddress s faddr
              { info with headBlock := blk.hash, repBlock := blk.hash }, ?_⟩
          simp [Ledger.step, hf, hsig, ha, hhd,
            getRepresentative_after_change_update s faddr blk.hash info hb]

theorem addBlock_change_errs (verify : ℕ → ℕ → ℕ → Bool) (blk : ChangeBlk) (s : StoreState) :
    ∃ e s', Ledger.addBlock verify (Block.change blk) s = .err e s' := by
  by_cases hv : Block.valid (Block.change blk) = false
  · exact ⟨.badWork, s, by simp [Ledger.addBlock, hv]⟩
  · have hv' : Block.valid (Block.change blk) = true := by
      cases h : Block.valid (Block.change blk)
      · exact absurd h hv
      · rfl
    cases hb : alookup (Block.hash (Block.change blk)) s.blocks with
    | some b =>
      exact ⟨.blockExists, s, by simp [Ledger.addBlock, hv', StoreTxn.hasBlock, hb]⟩
    | none =>
      have hb' : StoreTxn.hasBlock s (Block.hash (Block.change blk)) = false := by
        simp [StoreTxn.hasBlock, hb]
      by_cases hr : StoreTxn.hasBlock s (Block.root (Block.change blk)) = false
      · exact ⟨.missingPrevious, s,
          by simp [Ledger.addBlock, hv', hb', hr]⟩
      · have hr' : StoreTxn.hasBlock s (Block.root (Block.change blk)) = true := by
          cases h : StoreTxn.hasBlock s (Block.root (Block.change blk))
          · exact absurd h hr
          · rfl
        have hd : Ledger.addBlock verify (Block.change blk) s =
            Ledger.addChangeBlock verify blk s := by
          simp [Ledger.addBlock, hv', hb', hr']
        rw [hd]
        exact addChangeBlock_errs verify blk s hb

/-- C1: no Change block is ever applied successfully by this code.  The
handler overwrites the account's rep-block with the change hash before asking
getRepresentative for the old representative, so getRepresentative fetches the
change block itself, which is not stored yet; every code path therefore
returns an error, the transaction rolls back, and no representation weight is
ever moved. -/
theorem change_block_never_applies (verify : ℕ → ℕ → ℕ → Bool) (blk : ChangeBlk)
    (s : StoreState) :
    ∃ e, Ledger.AddBlock verify (Block.change blk) s = .err e s := by
  obtain ⟨e, s', he⟩ := addBlock_change_errs verify blk s
  exact ⟨e, by simp [Ledger.AddBlock, he]⟩

theorem Balance.sub_of_le {a b : ℕ} (hb : b ≤ a) (ha : a < 2 ^ 128) :
    Balance.sub a b = a - b := by
  unfold Balance.sub
  have hb2 : b % 2 ^ 128 = b := Nat.mod_eq_of_lt (lt_of_le_of_lt hb ha)
  rw [hb2]
  have h1 : a + (2 ^ 128 - b) = 2 ^ 128 + (a - b) := by omega
  rw [h1, Nat.add_mod_left]
  exact Nat.mod_eq_of_lt (by omega)

/-- Signature oracle accepting everything (stands for a fixture in which all
blocks are correctly signed). -/
def verifyAll : ℕ → ℕ → ℕ → Bool := fun _ _ _ => true

/-- Concrete genesis-like open block: hash 1, account 10, representative 99. -/
def genesisBlk : OpenBlk := ⟨1, 10, 99, 0, 0, true⟩

/-- Concrete post-bootstrap state: account 10 opened with balance 100, head
and rep block 1, one frontier. -/
def genesisState : StoreState :=
  ⟨[(1, Block.opn genesisBlk)], [(10, ⟨1, 1, 1, 100⟩)], [(1, 10)], [], []⟩

/-- Concrete send block: hash 2 on top of block 1, destination 20, new
remaining balance 40. -/
def sendBlk1 : SendBlk := ⟨2, 1, 20, 40, 0, true⟩

/-- Concrete change block: hash 3 on top of block 1, new representative 77. -/
def changeBlk1 : ChangeBlk := ⟨3, 1, 77, 0, true⟩

/-- C5: on an account whose frontier and head match the send's previous block
and whose signature verifies, a Send with stated new balance at least the
current balance fails with NegativeOrZeroSpend, and a Send with a strictly
smaller stated balance succeeds, creating Pending(destination, hash) of amount
(old balance − new balance) and updating the account record to head = hash and
balance = the stated balance. -/
theorem send_block_spend_check_and_effects (verify : ℕ → ℕ → ℕ → Bool)
    (blk : SendBlk) (s : StoreState) (a : ℕ) (info : AddressInfo) (rb : Block)
    (hf : alookup blk.previous s.frontiers = some a)
    (hsig : verify a blk.hash blk.signature = true)
    (ha : alookup a s.addresses = some info)
    (hhd : info.headBlock = blk.previous)
    (hbal : info.balance < 2 ^ 128)
    (hp : alookup (blk.destination, blk.hash) s.pendings = none)
    (hblk : alookup blk.hash s.blocks = none)
    (hrb : alookup info.repBlock s.blocks = some rb)
    (hrbv : (∃ ob, rb = Block.opn ob) ∨ (∃ cb, rb = Block.change cb)) :
    (info.balance ≤ blk.balance →
      Ledger.addSendBlock verify blk s = .err .negativeOrZeroSpend s) ∧
    (blk.balance < info.balance →
      ∃ s', Ledger.addSendBlock verify blk s = .ok () s' ∧
        alookup (blk.destination, blk.hash) s'.pendings =
          some ⟨a, info.balance - blk.balance⟩ ∧
        alookup a s'.addresses =
          some { info with headBlock := blk.hash, balance := blk.balance }) := by
  constructor
  · intro hle
    simp [Ledger.addSendBlock, Ledger.step, StoreTxn.getFrontier, hf, hsig,
      StoreTxn.getAddress, ha, hhd, hle]
  · intro hlt
    have hnle : ¬(info.balance ≤ blk.balance) := by omega
    have hsub : Balance.sub info.balance blk.balance = info.balance - blk.balance :=
      Balance.sub_of_le (le_of_lt hlt) hbal
    rcases hrbv with ⟨ob, rfl⟩ | ⟨cb, rfl⟩ <;>
      simp [Ledger.addSendBlock, Ledger.step, StoreTxn.getFrontier, hf, hsig,
        StoreTxn.getAddress, ha, hhd, hnle, StoreTxn.addPending, hp,
        StoreTxn.updateAddress, Ledger.getRepresentative, alookup_aset_self,
        StoreTxn.getBlock, hrb, StoreTxn.subRepresentation, StoreTxn.setRepresentation,
        StoreTxn.getRepresentation, StoreTxn.deleteFrontier, StoreTxn.addFrontier,
        alookup_aerase_self, StoreTxn.addBlock, Block.hash, hblk, hsub, alookup_aset_ne]

/-- Witness for send_block_spend_check_and_effects: the concrete send of 60
(new balance 40) from account 10 on the post-bootstrap state. -/
theorem send_block_witness :
    ∃ s', Ledger.addSendBlock verifyAll sendBlk1 genesisState = .ok () s' ∧
      alookup (20, 2) s'.pendings = some ⟨10, 60⟩ ∧
      alookup 10 s'.addresses = some ⟨2, 1, 1, 40⟩ :=
  (send_block_spend_check_and_effects verifyAll sendBlk1 genesisState 10 ⟨1, 1, 1, 100⟩
    (Block.opn genesisBlk) (by decide) (by decide) (by decide) (by decide) (by decide)
    (by decide) (by decide) (by decide) (Or.inl ⟨genesisBlk, rfl⟩)).2 (by decide)

/-- C2: after a successfully applied Send block the frontier keyed by
block.previous is NOT deleted: the handler deletes the frontier keyed by the
new hash (a no-op) and then inserts the new frontier, so the committed state
holds two frontiers for the account, one at block.previous and one at the new
hash.  This contradicts the claim that the previous frontier is deleted and
that each account keeps exactly one frontier. -/
theorem send_block_leaves_stale_frontier (verify : ℕ → ℕ → ℕ → Bool)
    (blk : SendBlk) (s : StoreState) (a : ℕ) (info : AddressInfo) (rb : Block)
    (hf : alookup blk.previous s.frontiers = some a)
    (hsig : verify a blk.hash blk.signature = true)
    (ha : alookup a s.addresses = some info)
    (hhd : info.headBlock = blk.previous)
    (hp : alookup (blk.destination, blk.hash) s.pendings = none)
    (hblk : alookup blk.hash s.blocks = none)
    (hrb : alookup info.repBlock s.blocks = some rb)
    (hrbv : (∃ ob, rb = Block.opn ob) ∨ (∃ cb, rb = Block.change cb))
    (hne : blk.previous ≠ blk.hash)
    (hlt : blk.balance < info.balance) :
    ∃ s', Ledger.addSendBlock verify blk s = .ok () s' ∧
      alookup blk.previous s'.frontiers = some a ∧
      alookup blk.hash s'.frontiers = some a := by
  have hnle : ¬(info.balance ≤ blk.balance) := by omega
  rcases hrbv with ⟨ob, rfl⟩ | ⟨cb, rfl⟩ <;>
    simp [Ledger.addSendBlock, Ledger.step, StoreTxn.getFrontier, hf, hsig,
      StoreTxn.getAddress, ha, hhd, hnle, StoreTxn.addPending, hp,
      StoreTxn.updateAddress, Ledger.getRepresentative, alookup_aset_self,
      StoreTxn.getBlock, hrb, StoreTxn.subRepresentation, StoreTxn.setRepresentation,
      StoreTxn.getRepresentation, StoreTxn.deleteFrontier, StoreTxn.addFrontier,
      alookup_aerase_self, StoreTxn.addBlock, Block.hash, hblk,
      alookup_aset_ne _ _ hne, alookup_aerase_ne _ hne]

/-- Witness for send_block_leaves_stale_frontier: after the concrete send,
both hash 1 (the old tip) and hash 2 (the new tip) carry a frontier for
account 10. -/
theorem send_block_stale_frontier_witness :
    ∃ s', Ledger.addSendBlock verifyAll sendBlk1 genesisState = .ok () s' ∧
      alookup 1 s'.frontiers = some 10 ∧
      alookup 2 s'.frontiers = some 10 :=
  send_block_leaves_stale_frontier verifyAll sendBlk1 genesisState 10 ⟨1, 1, 1, 100⟩
    (Block.opn genesisBlk) (by decide) (by decide) (by decide) (by decide)
    (by decide) (by decide) (by decide) (Or.inl ⟨genesisBlk, rfl⟩) (by decide) (by decide)

theorem Balance.add_of_lt {a b : ℕ} (h : a + b < 2 ^ 128) : Balance.add a b = a + b :=
  Nat.mod_eq_of_lt h

/-- Concrete state holding one unclaimed pending: destination 20, source send
hash 2, originating account 10, amount 60. -/
def pendState : StoreState := ⟨[], [], [], [((20, 2), ⟨10, 60⟩)], []⟩

/-- Concrete open block for account 20 claiming send 2, representative 88. -/
def openBlk1 : OpenBlk := ⟨4, 20, 88, 2, 0, true⟩

/-- Second concrete open block for account 20 claiming the same send 2. -/
def openBlk2 : OpenBlk := ⟨5, 20, 88, 2, 0, true⟩

/-- The state reached by applying openBlk1 to pendState. -/
def afterOpenState : StoreState :=
  ⟨[(4, Block.opn openBlk1)], [(20, ⟨4, 4, 4, 60⟩)], [(4, 20)], [], [(88, 60)]⟩

/-- C6 (amended): a valid Open block with hash h claiming a pending of amount
a creates AddressInfo {head = rep = open = h, balance = a}, deletes the
pending record and credits the representative's weight by a.  A subsequent
Receive claiming the same (account, source) pair fails with MissingSource; a
subsequent Open claiming the same pair fails with the account-exists error,
because the account-existence check precedes the pending lookup. -/
theorem open_block_effects (verify : ℕ → ℕ → ℕ → Bool) (blk : OpenBlk)
    (s : StoreState) (p : Pending)
    (hsig : verify blk.address blk.hash blk.signature = true)
    (hnoacct : alookup blk.address s.addresses = none)
    (hpend : alookup (blk.address, blk.sourceHash) s.pendings = some p)
    (hfr : alookup blk.hash s.frontiers = none)
    (hblk : alookup blk.hash s.blocks = none)
    (hrep : StoreTxn.getRepresentation s blk.representative + p.amount < 2 ^ 128) :
    ∃ s', Ledger.addOpenBlock verify blk s = .ok () s' ∧
      alookup blk.address s'.addresses = some ⟨blk.hash, blk.hash, blk.hash, p.amount⟩ ∧
      alookup (blk.address, blk.sourceHash) s'.pendings = none ∧
      StoreTxn.getRepresentation s' blk.representative =
        StoreTxn.getRepresentation s blk.representative + p.amount ∧
      (∀ rblk : RecvBlk, rblk.previous = blk.hash → rblk.sourceHash = blk.sourceHash →
        verify blk.address rblk.hash rblk.signature = true →
        Ledger.addReceiveBlock verify rblk s' = .err .missingSource s') ∧
      (∀ ob : OpenBlk, ob.address = blk.address →
        verify ob.address ob.hash ob.signature = true →
        Ledger.addOpenBlock verify ob s' = .err .accountExists s') := by
  refine ⟨⟨aset blk.hash (Block.opn blk) s.blocks,
          aset blk.address ⟨blk.hash, blk.hash, blk.hash, p.amount⟩ s.addresses,
          aset blk.hash blk.address s.frontiers,
          aerase (blk.address, blk.sourceHash) s.pendings,
          aset blk.representative
            (Balance.add (StoreTxn.getRepresentation s blk.representative) p.amount)
            s.reps⟩, ?_, ?_, ?_, ?_, ?_, ?_⟩
  · simp [Ledger.addOpenBlock, Ledger.step, hsig, StoreTxn.getAddress, hnoacct,
      StoreTxn.getPending, hpend, StoreTxn.addAddress, StoreTxn.deletePending,
      StoreTxn.addRepresentation, StoreTxn.setRepresentation, StoreTxn.getRepresentation,
      StoreTxn.addFrontier, hfr, StoreTxn.addBlock, Block.hash, hblk]
  · simp [alookup_aset_self]
  · simp [alookup_aerase_self]
  · simp only [StoreTxn.getRepresentation, alookup_aset_self, Option.getD_some]
    exact Balance.add_of_lt hrep
  · intro rblk hprev hsrc hsig2
    simp [Ledger.addReceiveBlock, Ledger.step, StoreTxn.getFrontier, hprev, hsrc,
      alookup_aset_self, hsig2, StoreTxn.getAddress, StoreTxn.getPending,
      alookup_aerase_self]
  · intro ob haddr hsig2
    rw [haddr] at hsig2
    simp [Ledger.addOpenBlock, Ledger.step, hsig2, StoreTxn.getAddress, haddr,
      alookup_aset_self]

/-- Witness for open_block_effects at the concrete pending fixture. -/
theorem open_block_effects_witness :
    ∃ s', Ledger.addOpenBlock verifyAll openBlk1 pendState = .ok () s' ∧
      alookup 20 s'.addresses = some ⟨4, 4, 4, 60⟩ := by
  obtain ⟨s', h1, h2, _⟩ :=
    open_block_effects verifyAll openBlk1 pendState ⟨10, 60⟩ (by decide) (by decide)
      (by decide) (by decide) (by decide) (by decide)
  exact ⟨s', h1, h2⟩

/-- C6, counterexample to the claim as stated: after openBlk1 claims the
pending, a second Open claiming the same (account, source) pair fails with the
account-exists error, not with MissingSource. -/
theorem open_double_claim_counterexample :
    Ledger.addOpenBlock verifyAll openBlk1 pendState = .ok () afterOpenState ∧
    Ledger.addOpenBlock verifyAll openBlk2 afterOpenState = .err .accountExists afterOpenState ∧
    Err.accountExists ≠ Err.missingSource := by
  refine ⟨?_, ?_, ?_⟩ <;> decide

/-- The committed state after AddBlocks [changeBlk1] on genesisState: the
account record was rewritten (head and rep block now 3) although no block 3
was ever stored — the partial mutation of the failed change application. -/
def leakState : StoreState :=
  ⟨[(1, Block.opn genesisBlk)], [(10, ⟨3, 3, 1, 100⟩)], [(1, 10)], [], []⟩

/-- C3: a single AddBlock is atomic — on any validation error the committed
state is exactly the pre-call state — but AddBlocks is not: a block that fails
after mutating the transaction keeps its partial mutations, the loop swallows
the error, and the closing commit persists them.  Concretely, a batch holding
one valid change block commits a state whose account record points at a head
block that was never stored. -/
theorem addBlock_atomic_but_batch_leaks :
    (∀ (verify : ℕ → ℕ → ℕ → Bool) (blk : Block) (s : StoreState) (e : Err)
        (s0 : StoreState), Ledger.AddBlock verify blk s = .err e s0 → s0 = s) ∧
    (Ledger.AddBlocks verifyAll [Block.change changeBlk1] genesisState = .ok leakState ∧
      leakState ≠ genesisState ∧ leakState.blocks = genesisState.blocks) := by
  constructor
  · intro verify blk s e s0 h
    unfold Ledger.AddBlock at h
    cases hres : Ledger.addBlock verify blk s with
    | ok a s1 => rw [hres] at h; cases h
    | err e2 s2 => rw [hres] at h; cases h; rfl
    | panicked => rw [hres] at h; cases h
  · refine ⟨?_, ?_, ?_⟩ <;> decide

/-- Witness for addBlock_atomic_but_batch_leaks: the rollback conjunct applied
to the concrete failing change block on the post-bootstrap state. -/
theorem addBlock_rollback_witness :
    Ledger.AddBlock verifyAll (Block.change changeBlk1) genesisState =
      .err .keyNotFound genesisState ∧ genesisState = genesisState :=
  ⟨by decide, addBlock_atomic_but_batch_leaks.1 verifyAll (Block.change changeBlk1)
    genesisState .keyNotFound genesisState (by decide)⟩

/-- C8: NewLedger's setGenesis with a validly signed genesis block installs
the block, its AddressInfo and its frontier when the store holds no block;
on a non-empty store it succeeds leaving the state untouched exactly when the
genesis hash is stored and fails with BadGenesis otherwise; re-opening the
freshly installed store with the same genesis succeeds and the block count
stays 1. -/
theorem setGenesis_install_and_reopen (verify : ℕ → ℕ → ℕ → Bool) (g : OpenBlk)
    (bal : ℕ) (hsig : verify g.address g.hash g.signature = true) :
    (Ledger.setGenesis verify g bal emptyStore =
      .ok ⟨[(g.hash, Block.opn g)], [(g.address, ⟨g.hash, g.hash, g.hash, bal⟩)],
           [(g.hash, g.address)], [], []⟩) ∧
    (∀ s : StoreState, StoreTxn.empty s = false →
      StoreTxn.hasBlock s g.hash = true → Ledger.setGenesis verify g bal s = .ok s) ∧
    (∀ s : StoreState, StoreTxn.empty s = false →
      StoreTxn.hasBlock s g.hash = false →
      Ledger.setGenesis verify g bal s = .error .badGenesis) ∧
    (Ledger.setGenesis verify g bal
        ⟨[(g.hash, Block.opn g)], [(g.address, ⟨g.hash, g.hash, g.hash, bal⟩)],
         [(g.hash, g.address)], [], []⟩ =
      .ok ⟨[(g.hash, Block.opn g)], [(g.address, ⟨g.hash, g.hash, g.hash, bal⟩)],
           [(g.hash, g.address)], [], []⟩ ∧
      StoreTxn.countBlocks
        ⟨[(g.hash, Block.opn g)], [(g.address, ⟨g.hash, g.hash, g.hash, bal⟩)],
         [(g.hash, g.address)], [], []⟩ = 1) := by
  refine ⟨?_, ?_, ?_, ?_, ?_⟩
  · simp [Ledger.setGenesis, hsig, StoreTxn.empty, emptyStore, StoreTxn.addBlock,
      StoreTxn.addAddress, StoreTxn.addFrontier, Block.hash, alookup, aset, aerase]
  · intro s hne hhas
    simp [Ledger.setGenesis, hsig, hne, hhas]
  · intro s hne hhas
    simp [Ledger.setGenesis, hsig, hne, hhas]
  · simp [Ledger.setGenesis, hsig, StoreTxn.empty, StoreTxn.hasBlock, alookup]
  · simp [StoreTxn.countBlocks]

/-- Witness for setGenesis_install_and_reopen: the concrete genesis fixture
installs exactly the post-bootstrap state. -/
theorem setGenesis_witness :
    Ledger.setGenesis verifyAll genesisBlk 100 emptyStore =
      .ok ⟨[(1, Block.opn genesisBlk)], [(10, ⟨1, 1, 1, 100⟩)], [(1, 10)], [], []⟩ :=
  (setGenesis_install_and_reopen verifyAll genesisBlk 100 (by decide)).1

/-- Modelled from shopspring/decimal (an external dependency, out of the
repository's scope): a decimal number as an integer coefficient times
10^exponent.  Balances are nonnegative, so the coefficient is a natural. -/
structure Dec where
  coef : ℕ
  exp : ℤ
deriving DecidableEq, Repr

/-- Strips factors of 10 from v (at most fuel of them), returning the reduced
coefficient and the number of zeros stripped; this is the trailing-zero
trimming the decimal library's String method performs. -/
def stripTrailing : ℕ → ℕ → ℕ × ℕ
  | v, 0 => (v, 0)
  | v, fuel + 1 =>
    if v ≠ 0 ∧ v % 10 = 0 then
      ((stripTrailing (v / 10) fuel).1, (stripTrailing (v / 10) fuel).2 + 1)
    else (v, 0)

/-- Modelled from math/big (external dependency): the length of Int.Bytes,
the minimal big-endian byte representation — 0 for 0, and the number of
base-256 digits otherwise. -/
def byteLen (v : ℕ) : ℕ := if v = 0 then 0 else Nat.log 256 v + 1

/-- Balance.String() = UnitString("Mxrb", 33): the raw value v is divided by
10^30 exactly (a raw balance has at most 30 decimal places in Mxrb, and
DivRound's precision 33 exceeds that), and the decimal library prints the
quotient with trailing zeros trimmed.  The value denoted by the printed
string is returned as a Dec. -/
def BalanceString (v : ℕ) : Dec :=
  ⟨(stripTrailing v 30).1, ((stripTrailing v 30).2 : ℤ) - 30⟩

/-- ParseBalance(s, "Mxrb") on the decimal denoted by s: multiply by the unit
10^30 (adding 30 to the exponent), then compute i = coefficient * 10^exponent
using big.Int.Exp — which yields 1 on a negative exponent — and feed the
minimal big-endian bytes of i to Balance.UnmarshalBinary, which rejects any
byte slice whose length is not exactly 16 with ErrBadBalanceSize. -/
def ParseBalance (d : Dec) : Except Err ℕ :=
  let f : ℕ := if 0 ≤ d.exp + 30 then 10 ^ (d.exp + 30).toNat else 1
  let i : ℕ := d.coef * f
  if byteLen i = 16 then .ok i else .error .badBalanceSize

theorem stripTrailing_mul (fuel : ℕ) :
    ∀ v, (stripTrailing v fuel).1 * 10 ^ (stripTrailing v fuel).2 = v := by
  induction fuel with
  | zero => intro v; simp [stripTrailing]
  | succ n ih =>
    intro v
    by_cases hc : v ≠ 0 ∧ v % 10 = 0
    · simp only [stripTrailing, if_pos hc]
      rw [pow_succ]
      calc (stripTrailing (v / 10) n).1 * (10 ^ (stripTrailing (v / 10) n).2 * 10)
          = (stripTrailing (v / 10) n).1 * 10 ^ (stripTrailing (v / 10) n).2 * 10 := by
            ring
        _ = v / 10 * 10 := by rw [ih (v / 10)]
        _ = v := Nat.div_mul_cancel (Nat.dvd_of_mod_eq_zero hc.2)
    · simp [stripTrailing, hc]

/-- C9 (amended): parsing the printed representation of a canonical balance
round-trips to the identity exactly when the value is at least 2^120 (so that
its minimal big-endian representation is exactly 16 bytes); every smaller
balance, including 0, makes ParseBalance fail with ErrBadBalanceSize because
UnmarshalBinary insists on exactly 16 bytes. -/
theorem parse_print_roundtrip (v : ℕ) (hv : v < 2 ^ 128) :
    ParseBalance (BalanceString v) =
      if 2 ^ 120 ≤ v then .ok v else .error .badBalanceSize := by
  have hi : (stripTrailing v 30).1 * 10 ^ (stripTrailing v 30).2 = v :=
    stripTrailing_mul 30 v
  have e1 : (256 : ℕ) ^ 15 = 2 ^ 120 := by norm_num
  have e2 : (256 : ℕ) ^ 16 = 2 ^ 128 := by norm_num
  simp only [ParseBalance, BalanceString]
  have he : ((stripTrailing v 30).2 : ℤ) - 30 + 30 = ((stripTrailing v 30).2 : ℤ) := by
    ring
  rw [he, if_pos (Int.natCast_nonneg _), Int.toNat_natCast, hi]
  by_cases h : 2 ^ 120 ≤ v
  · rw [if_pos h]
    have hv0 : v ≠ 0 := by
      intro h0
      rw [h0] at h
      exact absurd h (by norm_num)
    have hlog : Nat.log 256 v = 15 :=
      Nat.log_eq_of_pow_le_of_lt_pow (e1 ▸ h) (by rw [e2]; omega)
    rw [if_pos]
    unfold byteLen
    rw [if_neg hv0, hlog]
  · rw [if_neg h, if_neg]
    intro hbl
    unfold byteLen at hbl
    by_cases hv0 : v = 0
    · rw [if_pos hv0] at hbl
      exact absurd hbl (by norm_num)
    · rw [if_neg hv0] at hbl
      have hlog : Nat.log 256 v = 15 := by omega
      have hle : (256 : ℕ) ^ 15 ≤ v := hlog ▸ Nat.pow_log_le_self 256 hv0
      rw [e1] at hle
      exact h hle

/-- Witness for parse_print_roundtrip: the round trip is the identity at
2^120 (the smallest balance with a 16-byte representation). -/
theorem parse_print_roundtrip_witness :
    2 ^ 120 < 2 ^ 128 ∧ ParseBalance (BalanceString (2 ^ 120)) = .ok (2 ^ 120) := by
  refine ⟨by norm_num, ?_⟩
  have h := parse_print_roundtrip (2 ^ 120) (by norm_num)
  rw [if_pos (le_refl _)] at h
  exact h

/-- C9, counterexample: the canonical balance 0 prints as "0", and
ParseBalance("0", "Mxrb") fails with ErrBadBalanceSize (big.Int.Bytes of 0 is
the empty slice, not 16 bytes), so parse after print is not the identity on
every canonical balance. -/
theorem parse_print_zero_counterexample :
    ParseBalance (BalanceString 0) = .error .badBalanceSize := rfl

/-- Witness for change_block_never_applies: the concrete valid change block on
the post-bootstrap state is rejected and the state rolls back. -/
theorem change_block_never_applies_witness :
    ∃ e, Ledger.AddBlock verifyAll (Block.change changeBlk1) genesisState =
      .err e genesisState :=
  change_block_never_applies verifyAll changeBlk1 genesisState

/-- Witness for subRepresentation_wraps_never_fails at the empty store. -/
theorem subRepresentation_wraps_witness :
    ∃ s1, StoreTxn.subRepresentation emptyStore 0 1 = .ok s1 ∧
      StoreTxn.getRepresentation s1 0 = (0 + (2 ^ 128 - 1 % 2 ^ 128)) % 2 ^ 128 := by
  obtain ⟨s1, h1, h2, _⟩ := subRepresentation_wraps_never_fails emptyStore 0 1
  exact ⟨s1, h1, h2⟩
